import Mathlib

/-!
Verification of the Voxlore recording/delivery core against its
natural-language specification.

The definitions below are a shallow embedding of the Rust sources under
src-tauri/src: pure functions are translated directly; stateful command
handlers are translated into explicit state-passing functions over an
environment record that supplies the outcomes of the external effects
(OS permission queries, clipboard subprocesses, file writes, the
transcription provider).  Machine integers are modelled as Nat / Int with
explicit reductions modulo 2^w where the Rust code truncates; f64
arithmetic in the resampler accumulator is idealised as exact rational
arithmetic; the f64 square root in the RMS computation is idealised as the
exact real square root.
-/

namespace Voxlore

/-! ## Resampler (src-tauri/src/audio/resampler.rs)

The `Resampler` struct keeps the two rates and a fractional accumulator.
`resample` is the decimation-by-accumulation loop: for each input sample
the accumulator is incremented by 1, and whenever it reaches the ratio
`source_rate / target_rate` the ratio is subtracted and the sample is
emitted.  The f64 accumulator is modelled as an exact rational. -/

structure Resampler where
  source_rate : ℕ
  target_rate : ℕ
  accumulator : ℚ
deriving Repr

/-- Construct a resampler as `Resampler::new` does: accumulator 0. -/
def Resampler.mkNew (s t : ℕ) : Resampler := ⟨s, t, 0⟩

/-- Per-sample loop body of `Resampler::resample`, folded over the input.
Returns the final accumulator and the emitted samples. -/
def resampleGo (rat : ℚ) : ℚ → List ℤ → ℚ × List ℤ
  | acc, [] => (acc, [])
  | acc, s :: rest =>
    if rat ≤ acc + 1 then
      ((resampleGo rat (acc + 1 - rat) rest).1,
       s :: (resampleGo rat (acc + 1 - rat) rest).2)
    else
      resampleGo rat (acc + 1) rest

/-- The `needs_resampling` predicate: rates differ. -/
def Resampler.needs_resampling (r : Resampler) : Bool :=
  r.source_rate ≠ r.target_rate

/-- The `resample` method: identity copy when the rates agree, otherwise
the accumulation loop, with the accumulator carried in the state. -/
def Resampler.resample (r : Resampler) (input : List ℤ) : Resampler × List ℤ :=
  if r.source_rate = r.target_rate then (r, input)
  else
    (⟨r.source_rate, r.target_rate,
      (resampleGo ((r.source_rate : ℚ) / (r.target_rate : ℚ)) r.accumulator input).1⟩,
     (resampleGo ((r.source_rate : ℚ) / (r.target_rate : ℚ)) r.accumulator input).2)

/-- Accumulator values reachable for a resampler with fixed rates `s`, `t`:
the initial value 0, and anything produced by a `resample` call from a
reachable value. -/
inductive Resampler.Reachable (s t : ℕ) : ℚ → Prop
  | init : Resampler.Reachable s t 0
  | step (acc : ℚ) (input : List ℤ) :
      Resampler.Reachable s t acc →
      Resampler.Reachable s t ((Resampler.resample ⟨s, t, acc⟩ input).1.accumulator)

/-! ## WAV encoding and RMS (src-tauri/src/audio/wav.rs) -/

/-- Little-endian bytes of a u16 value. -/
def u16le (n : ℕ) : List ℕ := [n % 256, n / 256 % 256]

/-- Little-endian bytes of a u32 value. -/
def u32le (n : ℕ) : List ℕ :=
  [n % 256, n / 256 % 256, n / 65536 % 256, n / 16777216 % 256]

/-- Little-endian two's-complement bytes of an i16 sample
(`i16::to_le_bytes`). -/
def i16le (s : ℤ) : List ℕ :=
  [(s % 65536).toNat % 256, (s % 65536).toNat / 256]

/-- Recover a u32 from four little-endian bytes. -/
def leToU32 : List ℕ → ℕ
  | [a, b, c, d] => a + 256 * b + 65536 * c + 16777216 * d
  | _ => 0

/-- Recover an i16 sample from two little-endian two's-complement bytes. -/
def leToI16 (a b : ℕ) : ℤ :=
  if (a : ℤ) + 256 * (b : ℤ) < 32768 then (a : ℤ) + 256 * (b : ℤ)
  else (a : ℤ) + 256 * (b : ℤ) - 65536

/-- The `encode_wav` function: 44-byte RIFF/WAVE header for mono 16-bit PCM
followed by the raw little-endian samples.  The u32 header fields wrap
modulo 2^32 exactly where the Rust `as u32` casts and u32 arithmetic do. -/
def encode_wav (samples : List ℤ) (sample_rate : ℕ) : List ℕ :=
  let data_size := 2 * samples.length % 4294967296
  let file_size := (36 + data_size) % 4294967296
  let byte_rate := sample_rate % 4294967296 * 16 % 4294967296 / 8
  [82, 73, 70, 70] ++ u32le file_size ++ [87, 65, 86, 69] ++
  [102, 109, 116, 32] ++ u32le 16 ++ u16le 1 ++ u16le 1 ++
  u32le (sample_rate % 4294967296) ++ u32le byte_rate ++ u16le 2 ++ u16le 16 ++
  [100, 97, 116, 97] ++ u32le data_size ++
  (samples.map i16le).flatten

/-- Decode the data bytes of a WAV payload two by two into i16 samples. -/
def decodeSamples : List ℕ → List ℤ
  | a :: b :: rest => leToI16 a b :: decodeSamples rest
  | _ => []

/-- Modelled from the spec: the repository contains no WAV parser, so this
decoder follows the spec's description of the fixed 44-byte layout
(`RIFF`, size, `WAVE`, `fmt ` subchunk size 16 / format 1 / channels 1 /
sample rate / byte rate / block align 2 / bits 16, `data` subchunk + raw
samples).  It validates the magic strings and the fixed format constants,
reads the sample rate and the data size, requires the payload length to
match the data size, and decodes the samples; the overall-size and
byte-rate fields are read past without cross-validation. -/
def decode_wav (bytes : List ℕ) : Option (List ℤ × ℕ) :=
  if bytes.take 4 = [82, 73, 70, 70] ∧
     (bytes.drop 8).take 4 = [87, 65, 86, 69] ∧
     (bytes.drop 12).take 4 = [102, 109, 116, 32] ∧
     (bytes.drop 16).take 4 = u32le 16 ∧
     (bytes.drop 20).take 2 = u16le 1 ∧
     (bytes.drop 22).take 2 = u16le 1 ∧
     (bytes.drop 32).take 2 = u16le 2 ∧
     (bytes.drop 34).take 2 = u16le 16 ∧
     (bytes.drop 36).take 4 = [100, 97, 116, 97] then
    let rate := leToU32 ((bytes.drop 24).take 4)
    let dsize := leToU32 ((bytes.drop 40).take 4)
    let dataBytes := bytes.drop 44
    if dataBytes.length = dsize then some (decodeSamples dataBytes, rate)
    else none
  else none

/-! ## Text delivery (src-tauri/src/text_insertion/macos.rs)

The `insert_text` command is translated into a pure function over an
environment record supplying the outcomes of the external effects: the
`pbpaste` / `pbcopy` subprocesses, the two permission preflights
(`AXIsProcessTrusted`, `CGPreflightPostEventAccess` before and after the
request), `simulate_cmd_v` (CGEvent) and the osascript fallback.  The
system clipboard is threaded through explicitly as a string state, and
the trace records the clipboard contents at the moment a paste keystroke
is first attempted. -/

structure MacEnv where
  /-- Whether a `pbpaste` read of the current clipboard succeeds. -/
  pbpasteOk : Bool
  /-- Whether the `pbcopy` call placing the new text succeeds. -/
  pbcopyOk : Bool
  /-- Whether the `pbcopy` call restoring the saved clipboard succeeds. -/
  restoreOk : Bool
  /-- Result of the initial `AXIsProcessTrusted` check. -/
  trusted : Bool
  /-- Result of the first `CGPreflightPostEventAccess` check. -/
  postEvent1 : Bool
  /-- Result of the re-check after `CGRequestPostEventAccess`. -/
  postEvent2 : Bool
  /-- Whether `simulate_cmd_v` (CGEvent Cmd+V) returns Ok. -/
  cgOk : Bool
  /-- Whether the osascript Cmd+V fallback returns Ok. -/
  osaOk : Bool
deriving Repr

structure InsertTrace where
  /-- The value `insert_text` returns: error message, or the
  `auto_pasted` boolean. -/
  result : Except String Bool
  /-- Clipboard contents when `insert_text` returns. -/
  finalClipboard : String
  /-- Clipboard contents at the moment the first paste keystroke was
  attempted, or none if the function returned before any attempt. -/
  pasteAttemptClipboard : Option String
deriving Repr

/-- The macOS `insert_text` command.  `clip0` is the clipboard content on
entry.  Mirrors the source order: save the clipboard, set it to `text`
(early error if that fails), sample the permission predicates (re-checking
post-event access once after requesting it), attempt CGEvent Cmd+V then
the osascript fallback, and finally restore the clipboard only when a
paste was posted in fully-trusted mode. -/
def insert_text (env : MacEnv) (text clip0 : String) : InsertTrace :=
  let saved : Option String := if env.pbpasteOk then some clip0 else none
  if env.pbcopyOk = false then
    { result := .error "Failed to set clipboard",
      finalClipboard := clip0,
      pasteAttemptClipboard := none }
  else
    let post_event_allowed := env.postEvent1 || env.postEvent2
    let untrusted_mode := !(env.trusted && post_event_allowed)
    let pasted := env.cgOk || env.osaOk
    if pasted && !untrusted_mode then
      match saved with
      | some s =>
        { result := .ok true,
          finalClipboard := if env.restoreOk then s else text,
          pasteAttemptClipboard := some text }
      | none =>
        { result := .ok true,
          finalClipboard := text,
          pasteAttemptClipboard := some text }
    else
      { result := .ok false,
        finalClipboard := text,
        pasteAttemptClipboard := some text }

/-! ## Recording session state machine (src-tauri/src/commands/recording.rs)

The shared `AppState` fields the start/stop commands use are the
stop-signal slot and the recording-task slot.  The background capture
task is modelled by the sample buffer it will hand back when awaited.
The start command's environment supplies the microphone-permission
outcome; the stop command's environment supplies the wall-clock retry
budget (the 5-second deadline sampled every 50 ms), the timestamp, the
directory resolution inputs, the filesystem outcomes and the outcome of
the transcription dispatch. -/

inductive AppErr
  | audioErr (msg : String)
  | sttErr (msg : String)
  | ioErr (msg : String)
deriving DecidableEq, Repr

inductive Event
  | recordingEv
  | processingEv (msg : String)
  | doneEv
  | errorEv (msg : String)
deriving DecidableEq, Repr

inductive FileData
  | bin (bytes : List ℕ)
  | txt (s : String)
deriving DecidableEq, Repr

structure RecordingResult where
  text : String
  audio_path : Option String
  text_path : Option String
  duration_secs : ℚ
deriving DecidableEq, Repr

structure RecState where
  /-- `AppState.stop_signal`: the shared `AtomicBool` value, when a slot
  has been published. -/
  stop_signal : Option Bool
  /-- `AppState.recording_task`: the join handle, modelled by the sample
  buffer the background task returns when awaited. -/
  recording_task : Option (List ℤ)
deriving Repr

structure StartEnv where
  /-- Result of the `microphone_status` query
  ("granted", "not_determined", "denied", ...). -/
  micStatus : String
  /-- Result of `request_microphone_access` when status was
  not_determined. -/
  requestGranted : Bool
  /-- The buffer the spawned capture task will eventually return. -/
  task : List ℤ
deriving Repr

/-- The part of `start_recording` after the microphone-permission gate:
reject when the task slot is occupied, otherwise publish a fresh stop
signal and the task handle and emit the recording status. -/
def startCore (env : StartEnv) (st : RecState) :
    Except AppErr Unit × RecState × List Event :=
  if st.recording_task.isSome then
    (.error (.audioErr "Already recording"), st, [])
  else
    (.ok (), { stop_signal := some false, recording_task := some env.task },
     [Event.recordingEv])

/-- The `start_recording` command: microphone-permission gate (with the
one-shot request on "not_determined"), then `startCore`. -/
def start_recording (env : StartEnv) (st : RecState) :
    Except AppErr Unit × RecState × List Event :=
  if env.micStatus = "granted" then startCore env st
  else if env.micStatus = "not_determined" then
    if env.requestGranted then startCore env st
    else
      (.error (.audioErr "Microphone access denied"), st,
       [Event.errorEv "Microphone access denied. Please grant permission in System Settings > Privacy > Microphone."])
  else
    (.error (.audioErr ("Microphone permission " ++ env.micStatus ++ ". Open System Settings > Privacy > Microphone.")),
     st,
     [Event.errorEv "Microphone access denied. Please grant permission in System Settings > Privacy > Microphone."])

/-- One bounded retry loop of `stop_recording`: each iteration first tries
to take the slot, and only then compares against the deadline, so even a
zero budget still attempts the take once.  `fuel` is the number of 50 ms
sleeps the 5-second deadline still allows.  The slot is constant because
in the modelled scenario no concurrent start publishes it mid-wait. -/
def waitTake {α : Type} (slot : Option α) : ℕ → Except Unit α
  | 0 =>
    match slot with
    | some x => .ok x
    | none => .error ()
  | n + 1 =>
    match slot with
    | some x => .ok x
    | none => waitTake slot n

/-- Output of the `stop_recording` command: its return value, the shared
state afterwards, the status events emitted, the files written, and
whether the transcription dispatch was invoked. -/
structure StopOut where
  result : Except AppErr RecordingResult
  finalState : RecState
  events : List Event
  writes : List (String × FileData)
  transcribeCalled : Bool
deriving Repr

structure StopEnv where
  /-- Retry budget for the two bounded waits (5 s deadline / 50 ms). -/
  fuel : ℕ
  /-- `Local::now()` formatted as `%Y%m%d_%H%M%S`. -/
  timestamp : String
  /-- The `output_dir` argument of the command. -/
  outputDir : Option String
  /-- The `HOME` environment variable, if set. -/
  homeDir : Option String
  /-- The STT provider string read from the shared settings. -/
  provider : String
  /-- Whether `fs::create_dir_all` succeeds. -/
  dirOk : Bool
  /-- Whether the WAV `fs::write` succeeds. -/
  wavOk : Bool
  /-- Whether the TXT `fs::write` succeeds. -/
  txtOk : Bool
  /-- Outcome of `transcribe_with_selected_provider` on this buffer. -/
  transcription : Except String String
deriving Repr

/-- `resolve_output_dir`: a non-empty explicit directory wins, otherwise
`$HOME/Documents/Voxlore/recordings`, and an error when `HOME` is unset. -/
def resolveOutputDir (custom home : Option String) : Except AppErr String :=
  let fromHome : Except AppErr String :=
    match home with
    | some h => .ok (h ++ "/Documents/Voxlore/recordings")
    | none => .error (.ioErr "Cannot determine home directory")
  match custom with
  | some d => if d = "" then fromHome else .ok d
  | none => fromHome

/-- The `stop_recording` command: bounded wait for the stop signal (error
"No recording in progress" when it never appears), bounded wait for the
task handle, await the buffer, then either the empty-buffer early return
or the save-WAV / transcribe / save-TXT / done pipeline.  A failed
transcription is replaced by empty text after emitting an error status. -/
def stop_recording (env : StopEnv) (st : RecState) : StopOut :=
  match waitTake st.stop_signal env.fuel with
  | .error () =>
    { result := .error (.audioErr "No recording in progress"),
      finalState := st, events := [], writes := [], transcribeCalled := false }
  | .ok _ =>
    let st1 : RecState := { st with stop_signal := none }
    match waitTake st.recording_task env.fuel with
    | .error () =>
      { result := .error (.audioErr "Recording task not ready"),
        finalState := st1, events := [], writes := [], transcribeCalled := false }
    | .ok buffer =>
      let st2 : RecState := { stop_signal := none, recording_task := none }
      if buffer = [] then
        { result := .ok ⟨"", none, none, 0⟩,
          finalState := st2,
          events := [Event.errorEv "No audio captured. Check microphone permissions."],
          writes := [], transcribeCalled := false }
      else
        let duration : ℚ := (buffer.length : ℚ) / 16000
        match resolveOutputDir env.outputDir env.homeDir with
        | .error e =>
          { result := .error e, finalState := st2, events := [],
            writes := [], transcribeCalled := false }
        | .ok dir =>
          if env.dirOk = false then
            { result := .error (.ioErr "create_dir_all failed"),
              finalState := st2, events := [], writes := [],
              transcribeCalled := false }
          else
            let base := "recording_" ++ env.timestamp
            let wavPath := dir ++ "/" ++ base ++ ".wav"
            let wavData := encode_wav buffer 16000
            if env.wavOk = false then
              { result := .error (.ioErr "write wav failed"),
                finalState := st2, events := [], writes := [],
                transcribeCalled := false }
            else
              let processingMsg :=
                if env.provider = "vosk" then
                  "Processing transcription locally..."
                else
                  "Processing via cloud AI (" ++ env.provider ++
                    ")... If network is slow, this may timeout."
              let textAndEvents : String × List Event :=
                match env.transcription with
                | .ok t => (t, [])
                | .error e => ("", [Event.errorEv ("Transcription failed: " ++ e)])
              let txtPath := dir ++ "/" ++ base ++ ".txt"
              if env.txtOk = false then
                { result := .error (.ioErr "write txt failed"),
                  finalState := st2,
                  events := [Event.processingEv processingMsg] ++ textAndEvents.2,
                  writes := [(wavPath, FileData.bin wavData)],
                  transcribeCalled := true }
              else
                { result := .ok ⟨textAndEvents.1, some wavPath, some txtPath, duration⟩,
                  finalState := st2,
                  events := [Event.processingEv processingMsg] ++ textAndEvents.2 ++ [Event.doneEv],
                  writes := [(wavPath, FileData.bin wavData), (txtPath, FileData.txt textAndEvents.1)],
                  transcribeCalled := true }

/-! ## Focus snapshot (src-tauri/src/lib.rs)

`capture_frontmost_bundle_id_before_recording` polls the NSWorkspace
frontmost-application query for up to 500 ms at 25 ms intervals.  Each
poll either fails somewhere along the Objective-C chain (modelled as
`none`) or yields a bundle-identifier string; the first non-empty
identifier different from the app's own is returned, and `none` is
returned when the window closes without such an observation.  The bounded
real-time window is modelled by the finite list of poll outcomes it
admits. -/

def capture_frontmost_bundle_id_before_recording
    (self_bundle_id : String) : List (Option String) → Option String
  | [] => none
  | none :: rest => capture_frontmost_bundle_id_before_recording self_bundle_id rest
  | some b :: rest =>
    if b ≠ "" ∧ b ≠ self_bundle_id then some b
    else capture_frontmost_bundle_id_before_recording self_bundle_id rest

/-- Sum of squares of a sample list, the f64 accumulation in
`calculate_rms` idealised as exact integer arithmetic. -/
def sumSq (l : List ℤ) : ℤ := (l.map (fun s => s * s)).sum

/-- The `calculate_rms` function: 0 on the empty chunk, otherwise the root
mean square of the samples divided by `i16::MAX = 32767`.  The f64
computation is idealised as exact real arithmetic. -/
noncomputable def calculate_rms (l : List ℤ) : ℝ :=
  if l = [] then 0
  else Real.sqrt ((sumSq l : ℝ) / (l.length : ℝ)) / 32767

/-! ## Helper lemmas -/

theorem waitTake_none {α : Type} : ∀ fuel : ℕ, waitTake (none : Option α) fuel = .error () := by
  intro fuel
  induction fuel with
  | zero => rfl
  | succ n ih => simpa [waitTake] using ih

theorem waitTake_some {α : Type} (x : α) : ∀ fuel : ℕ, waitTake (some x) fuel = .ok x := by
  intro fuel
  cases fuel <;> rfl

/-! ## Claim theorems -/

/-- C3: a start request issued while the recording-task slot is occupied
fails with the already-recording error and leaves the shared state (stop
signal and task handle) unchanged.  The microphone-permission gate runs
first, so the hypothesis fixes its outcome to granted. -/
theorem start_recording_already_recording (env : StartEnv) (st : RecState)
    (t : List ℤ) (hmic : env.micStatus = "granted")
    (htask : st.recording_task = some t) :
    (start_recording env st).1 = .error (.audioErr "Already recording") ∧
    (start_recording env st).2.1 = st := by
  simp [start_recording, startCore, hmic, htask]

theorem start_recording_already_recording_witness :
    (start_recording ⟨"granted", true, []⟩ ⟨some false, some [1]⟩).1 =
      .error (.audioErr "Already recording") ∧
    (start_recording ⟨"granted", true, []⟩ ⟨some false, some [1]⟩).2.1 =
      (⟨some false, some [1]⟩ : RecState) :=
  start_recording_already_recording ⟨"granted", true, []⟩ ⟨some false, some [1]⟩
    [1] rfl rfl

/-- C4: a stop request issued when no stop signal was ever published fails
with the "No recording in progress" error after its bounded retry loop —
the loop is structurally bounded by the retry budget, so it terminates for
every budget — and in particular never returns a successful
`RecordingResult`. -/
theorem stop_recording_no_session (env : StopEnv) (st : RecState)
    (h : st.stop_signal = none) :
    (stop_recording env st).result = .error (.audioErr "No recording in progress") := by
  simp [stop_recording, h, waitTake_none]

theorem stop_recording_no_session_witness :
    (stop_recording ⟨100, "20260101_120000", none, none, "vosk", true, true, true, .ok "hi"⟩
      ⟨none, none⟩).result = .error (.audioErr "No recording in progress") :=
  stop_recording_no_session
    ⟨100, "20260101_120000", none, none, "vosk", true, true, true, .ok "hi"⟩
    ⟨none, none⟩ rfl

/-- C5: when the drained buffer is empty, `stop_recording` returns Ok with
the empty `RecordingResult` (empty text, no paths, zero duration), never
invokes the transcription dispatch, and reports the failure only through
the asynchronous error status event. -/
theorem stop_recording_empty_buffer (env : StopEnv) (st : RecState)
    (flag : Bool) (hsig : st.stop_signal = some flag)
    (htask : st.recording_task = some ([] : List ℤ)) :
    (stop_recording env st).result = .ok ⟨"", none, none, 0⟩ ∧
    (stop_recording env st).transcribeCalled = false ∧
    (stop_recording env st).events =
      [Event.errorEv "No audio captured. Check microphone permissions."] ∧
    (stop_recording env st).writes = [] := by
  simp [stop_recording, hsig, htask, waitTake_some]

theorem stop_recording_empty_buffer_witness :
    (stop_recording ⟨100, "20260101_120000", none, none, "vosk", true, true, true, .ok "hi"⟩
      ⟨some false, some []⟩).result = .ok ⟨"", none, none, 0⟩ ∧
    (stop_recording ⟨100, "20260101_120000", none, none, "vosk", true, true, true, .ok "hi"⟩
      ⟨some false, some []⟩).transcribeCalled = false ∧
    (stop_recording ⟨100, "20260101_120000", none, none, "vosk", true, true, true, .ok "hi"⟩
      ⟨some false, some []⟩).events =
      [Event.errorEv "No audio captured. Check microphone permissions."] ∧
    (stop_recording ⟨100, "20260101_120000", none, none, "vosk", true, true, true, .ok "hi"⟩
      ⟨some false, some []⟩).writes = [] :=
  stop_recording_empty_buffer
    ⟨100, "20260101_120000", none, none, "vosk", true, true, true, .ok "hi"⟩
    ⟨some false, some []⟩ false rfl rfl

/-- C6: for a non-empty captured buffer, even when the transcription
dispatch fails, `stop_recording` still writes the WAV file, still writes
the (empty) text file, emits the done status, and returns Ok with both
paths set and the failed transcription replaced by empty text.  The
filesystem hypotheses record that directory creation and the two writes
succeed, and `dir` is the resolved output directory. -/
theorem stop_recording_partial_artifacts (env : StopEnv) (st : RecState)
    (flag : Bool) (buf : List ℤ) (dir e : String)
    (hsig : st.stop_signal = some flag)
    (htask : st.recording_task = some buf)
    (hbuf : buf ≠ [])
    (hdir : resolveOutputDir env.outputDir env.homeDir = .ok dir)
    (hdirOk : env.dirOk = true) (hwav : env.wavOk = true)
    (htxt : env.txtOk = true)
    (htr : env.transcription = .error e) :
    (stop_recording env st).result =
      .ok ⟨"", some (dir ++ "/" ++ ("recording_" ++ env.timestamp) ++ ".wav"),
              some (dir ++ "/" ++ ("recording_" ++ env.timestamp) ++ ".txt"),
              (buf.length : ℚ) / 16000⟩ ∧
    (dir ++ "/" ++ ("recording_" ++ env.timestamp) ++ ".wav",
      FileData.bin (encode_wav buf 16000)) ∈ (stop_recording env st).writes ∧
    (dir ++ "/" ++ ("recording_" ++ env.timestamp) ++ ".txt",
      FileData.txt "") ∈ (stop_recording env st).writes ∧
    Event.doneEv ∈ (stop_recording env st).events := by
  simp [stop_recording, hsig, htask, waitTake_some, hbuf, hdir, hdirOk, hwav,
    htxt, htr]

theorem stop_recording_partial_artifacts_witness :
    (stop_recording
      ⟨1, "20260101_120000", some "/tmp/out", none, "vosk", true, true, true, .error "boom"⟩
      ⟨some false, some [5]⟩).result =
      .ok ⟨"", some ("/tmp/out" ++ "/" ++ ("recording_" ++ "20260101_120000") ++ ".wav"),
              some ("/tmp/out" ++ "/" ++ ("recording_" ++ "20260101_120000") ++ ".txt"),
              (([5] : List ℤ).length : ℚ) / 16000⟩ ∧
    ("/tmp/out" ++ "/" ++ ("recording_" ++ "20260101_120000") ++ ".wav",
      FileData.bin (encode_wav [5] 16000)) ∈
      (stop_recording
        ⟨1, "20260101_120000", some "/tmp/out", none, "vosk", true, true, true, .error "boom"⟩
        ⟨some false, some [5]⟩).writes ∧
    ("/tmp/out" ++ "/" ++ ("recording_" ++ "20260101_120000") ++ ".txt",
      FileData.txt "") ∈
      (stop_recording
        ⟨1, "20260101_120000", some "/tmp/out", none, "vosk", true, true, true, .error "boom"⟩
        ⟨some false, some [5]⟩).writes ∧
    Event.doneEv ∈
      (stop_recording
        ⟨1, "20260101_120000", some "/tmp/out", none, "vosk", true, true, true, .error "boom"⟩
        ⟨some false, some [5]⟩).events :=
  stop_recording_partial_artifacts
    ⟨1, "20260101_120000", some "/tmp/out", none, "vosk", true, true, true, .error "boom"⟩
    ⟨some false, some [5]⟩ false [5] "/tmp/out" "boom"
    rfl rfl (by simp) (by simp [resolveOutputDir]) rfl rfl rfl rfl

/-- C1: when the clipboard-set succeeds, `insert_text` has the delivered
text on the clipboard at the moment the paste keystroke is attempted;
whenever it returns false the delivered text is still on the clipboard on
exit (so the pre-insertion contents were not restored); and with
accessibility trust denied the return value is false and the clipboard
still holds the delivered text. -/
theorem insert_text_clipboard_first (env : MacEnv) (text clip0 : String)
    (hset : env.pbcopyOk = true) :
    (insert_text env text clip0).pasteAttemptClipboard = some text ∧
    ((insert_text env text clip0).result = .ok false →
      (insert_text env text clip0).finalClipboard = text) ∧
    (env.trusted = false →
      (insert_text env text clip0).result = .ok false ∧
      (insert_text env text clip0).finalClipboard = text) := by
  rcases env with ⟨pp, pc, ro, tr, p1, p2, cg, osa⟩
  simp only at hset
  subst hset
  cases pp <;> cases ro <;> cases tr <;> cases p1 <;> cases p2 <;>
    cases cg <;> cases osa <;> simp [insert_text]

theorem insert_text_clipboard_first_witness :
    (insert_text ⟨true, true, true, false, true, true, true, true⟩ "hello" "old").pasteAttemptClipboard = some "hello" ∧
    ((insert_text ⟨true, true, true, false, true, true, true, true⟩ "hello" "old").result = .ok false →
      (insert_text ⟨true, true, true, false, true, true, true, true⟩ "hello" "old").finalClipboard = "hello") ∧
    ((⟨true, true, true, false, true, true, true, true⟩ : MacEnv).trusted = false →
      (insert_text ⟨true, true, true, false, true, true, true, true⟩ "hello" "old").result = .ok false ∧
      (insert_text ⟨true, true, true, false, true, true, true, true⟩ "hello" "old").finalClipboard = "hello") :=
  insert_text_clipboard_first ⟨true, true, true, false, true, true, true, true⟩
    "hello" "old" rfl

/-- C2: when the clipboard subprocesses succeed, `insert_text` returns
true exactly when both permission predicates were granted and one of the
two injection paths reported success; in that case the clipboard ends
restored to its pre-insertion contents, and otherwise the call returns
false and leaves the delivered text on the clipboard. -/
theorem insert_text_auto_paste_iff (env : MacEnv) (text clip0 : String)
    (hset : env.pbcopyOk = true) (hget : env.pbpasteOk = true)
    (hres : env.restoreOk = true) :
    ((insert_text env text clip0).result = .ok true ↔
      (env.trusted && (env.postEvent1 || env.postEvent2) &&
        (env.cgOk || env.osaOk)) = true) ∧
    ((env.trusted && (env.postEvent1 || env.postEvent2) &&
        (env.cgOk || env.osaOk)) = true →
      (insert_text env text clip0).finalClipboard = clip0) ∧
    ((env.trusted && (env.postEvent1 || env.postEvent2) &&
        (env.cgOk || env.osaOk)) = false →
      (insert_text env text clip0).result = .ok false ∧
      (insert_text env text clip0).finalClipboard = text) := by
  rcases env with ⟨pp, pc, ro, tr, p1, p2, cg, osa⟩
  simp only at hset hget hres
  subst hset; subst hget; subst hres
  cases tr <;> cases p1 <;> cases p2 <;> cases cg <;> cases osa <;>
    simp [insert_text]

theorem insert_text_auto_paste_iff_witness :
    ((insert_text ⟨true, true, true, true, true, true, true, true⟩ "hi" "prev").result = .ok true ↔
      ((⟨true, true, true, true, true, true, true, true⟩ : MacEnv).trusted &&
        ((⟨true, true, true, true, true, true, true, true⟩ : MacEnv).postEvent1 ||
          (⟨true, true, true, true, true, true, true, true⟩ : MacEnv).postEvent2) &&
        ((⟨true, true, true, true, true, true, true, true⟩ : MacEnv).cgOk ||
          (⟨true, true, true, true, true, true, true, true⟩ : MacEnv).osaOk)) = true) ∧
    (((⟨true, true, true, true, true, true, true, true⟩ : MacEnv).trusted &&
        ((⟨true, true, true, true, true, true, true, true⟩ : MacEnv).postEvent1 ||
          (⟨true, true, true, true, true, true, true, true⟩ : MacEnv).postEvent2) &&
        ((⟨true, true, true, true, true, true, true, true⟩ : MacEnv).cgOk ||
          (⟨true, true, true, true, true, true, true, true⟩ : MacEnv).osaOk)) = true →
      (insert_text ⟨true, true, true, true, true, true, true, true⟩ "hi" "prev").finalClipboard = "prev") ∧
    (((⟨true, true, true, true, true, true, true, true⟩ : MacEnv).trusted &&
        ((⟨true, true, true, true, true, true, true, true⟩ : MacEnv).postEvent1 ||
          (⟨true, true, true, true, true, true, true, true⟩ : MacEnv).postEvent2) &&
        ((⟨true, true, true, true, true, true, true, true⟩ : MacEnv).cgOk ||
          (⟨true, true, true, true, true, true, true, true⟩ : MacEnv).osaOk)) = false →
      (insert_text ⟨true, true, true, true, true, true, true, true⟩ "hi" "prev").result = .ok false ∧
      (insert_text ⟨true, true, true, true, true, true, true, true⟩ "hi" "prev").finalClipboard = "hi") :=
  insert_text_auto_paste_iff ⟨true, true, true, true, true, true, true, true⟩
    "hi" "prev" rfl rfl rfl

/-- Helper for C7: the focus snapshot equals the first successfully
observed identifier that is non-empty and different from the app's own. -/
theorem captureEqFind (self : String) :
    ∀ polls : List (Option String),
      capture_frontmost_bundle_id_before_recording self polls =
        (polls.filterMap id).find? (fun b => decide (b ≠ "" ∧ b ≠ self)) := by
  intro polls
  induction polls with
  | nil => rfl
  | cons p rest ih =>
    cases p with
    | none =>
      simpa [capture_frontmost_bundle_id_before_recording] using ih
    | some b =>
      by_cases hb : b ≠ "" ∧ b ≠ self
      · simp [capture_frontmost_bundle_id_before_recording, hb, List.find?]
      · simp only [capture_frontmost_bundle_id_before_recording, if_neg hb,
          List.filterMap_cons_some, id, List.find?]
        rw [ih]
        have : (decide (b ≠ "" ∧ b ≠ self)) = false := by
          simpa using hb
        simp [this]

/-- C7: the recording-start focus snapshot, over the finite sequence of
poll outcomes its 500 ms / 25 ms window admits, returns the first
observed identifier that is non-empty and different from the app's own
identifier — in particular it returns none when no such identifier is
observed, and it never returns the app's own identifier (nor the empty
one). -/
theorem capture_frontmost_spec (self : String) (polls : List (Option String)) :
    capture_frontmost_bundle_id_before_recording self polls =
      (polls.filterMap id).find? (fun b => decide (b ≠ "" ∧ b ≠ self)) ∧
    ∀ b, capture_frontmost_bundle_id_before_recording self polls = some b →
      b ≠ "" ∧ b ≠ self := by
  refine ⟨captureEqFind self polls, ?_⟩
  intro b hb
  rw [captureEqFind self polls] at hb
  have := List.find?_some hb
  simpa using this

theorem capture_frontmost_spec_witness :
    (capture_frontmost_bundle_id_before_recording "com.voxlore.app"
        [none, some "", some "com.voxlore.app", some "com.apple.Safari"] =
      ([none, some "", some "com.voxlore.app", some "com.apple.Safari"].filterMap id).find?
        (fun b => decide (b ≠ "" ∧ b ≠ "com.voxlore.app"))) ∧
    ("com.apple.Safari" ≠ "" ∧ "com.apple.Safari" ≠ "com.voxlore.app") :=
  ⟨(capture_frontmost_spec "com.voxlore.app"
      [none, some "", some "com.voxlore.app", some "com.apple.Safari"]).1,
   (capture_frontmost_spec "com.voxlore.app"
      [none, some "", some "com.voxlore.app", some "com.apple.Safari"]).2
     "com.apple.Safari" (by decide)⟩

/-- Helper for C8: accumulator accounting — after one `resampleGo` pass
the accumulator equals the starting accumulator plus the number of input
samples minus the number of emitted samples times the ratio. -/
theorem resampleGo_acc_eq (rat : ℚ) :
    ∀ (l : List ℤ) (acc : ℚ),
      (resampleGo rat acc l).1 =
        acc + l.length - ((resampleGo rat acc l).2.length : ℚ) * rat := by
  intro l
  induction l with
  | nil => intro acc; simp [resampleGo]
  | cons s rest ih =>
    intro acc
    by_cases h : rat ≤ acc + 1
    · simp only [resampleGo, if_pos h, List.length_cons]
      rw [ih]
      push_cast
      ring
    · simp only [resampleGo, if_neg h, List.length_cons]
      rw [ih]
      push_cast
      ring

/-- Helper for C8: the accumulator stays nonnegative through a pass. -/
theorem resampleGo_acc_nonneg (rat : ℚ) :
    ∀ (l : List ℤ) (acc : ℚ), 0 ≤ acc → 0 ≤ (resampleGo rat acc l).1 := by
  intro l
  induction l with
  | nil => intro acc h; simpa [resampleGo] using h
  | cons s rest ih =>
    intro acc h
    by_cases hc : rat ≤ acc + 1
    · simp only [resampleGo, if_pos hc]
      exact ih _ (by linarith)
    · simp only [resampleGo, if_neg hc]
      exact ih _ (by linarith)

/-- Helper for C8: for a ratio of at least 1, the invariant
`0 ≤ accumulator < ratio` is preserved by a pass. -/
theorem resampleGo_acc_inv (rat : ℚ) (hr : 1 ≤ rat) :
    ∀ (l : List ℤ) (acc : ℚ), 0 ≤ acc → acc < rat →
      0 ≤ (resampleGo rat acc l).1 ∧ (resampleGo rat acc l).1 < rat := by
  intro l
  induction l with
  | nil => intro acc h0 h1; simpa [resampleGo] using ⟨h0, h1⟩
  | cons s rest ih =>
    intro acc h0 h1
    by_cases hc : rat ≤ acc + 1
    · simp only [resampleGo, if_pos hc]
      exact ih _ (by linarith) (by linarith)
    · simp only [resampleGo, if_neg hc]
      exact ih _ (by linarith) (by linarith)

/-- Helper for C8: when downsampling, every reachable accumulator value
satisfies `0 ≤ accumulator < source_rate / target_rate`. -/
theorem reachable_acc_inv (s t : ℕ) (ht : 0 < t) (hst : t < s) (acc : ℚ)
    (h : Resampler.Reachable s t acc) :
    0 ≤ acc ∧ acc < (s : ℚ) / (t : ℚ) := by
  have htq : (0 : ℚ) < (t : ℚ) := by exact_mod_cast ht
  have hrat : 1 < (s : ℚ) / (t : ℚ) := by
    rw [lt_div_iff₀ htq, one_mul]
    exact_mod_cast hst
  induction h with
  | init => exact ⟨le_refl 0, by linarith⟩
  | step acc' input hprev ihp =>
    have hneq : s ≠ t := by omega
    simp only [Resampler.resample, if_neg hneq]
    exact resampleGo_acc_inv _ (le_of_lt hrat) input acc' ihp.1 ihp.2

/-- C8: for every input chunk and every accumulator state reachable by
prior `resample` calls, a downsampling `resample` (source rate above
target rate) emits at most `⌈len(input) / (source_rate/target_rate)⌉ + 1`
samples. -/
theorem resample_downsample_output_bound (s t : ℕ) (ht : 0 < t) (hst : t < s)
    (acc : ℚ) (hreach : Resampler.Reachable s t acc) (input : List ℤ) :
    (((Resampler.mk s t acc).resample input).2.length : ℤ) ≤
      ⌈(input.length : ℚ) / ((s : ℚ) / (t : ℚ))⌉ + 1 := by
  obtain ⟨h0, h1⟩ := reachable_acc_inv s t ht hst acc hreach
  have hneq : s ≠ t := by omega
  have htq : (0 : ℚ) < (t : ℚ) := by exact_mod_cast ht
  have hrat : 1 < (s : ℚ) / (t : ℚ) := by
    rw [lt_div_iff₀ htq, one_mul]
    exact_mod_cast hst
  simp only [Resampler.resample, if_neg hneq]
  set rat : ℚ := (s : ℚ) / (t : ℚ) with hratdef
  set k : ℕ := (resampleGo rat acc input).2.length with hk
  have hacc := resampleGo_acc_eq rat input acc
  have hnn := resampleGo_acc_nonneg rat input acc h0
  rw [hacc] at hnn
  have hkr : (k : ℚ) * rat ≤ acc + input.length := by linarith
  have hklt : (k : ℚ) * rat < rat + input.length := by linarith
  have hratpos : (0 : ℚ) < rat := by linarith
  have hkdiv : (k : ℚ) < (rat + (input.length : ℚ)) / rat :=
    (lt_div_iff₀ hratpos).mpr hklt
  have hsplit : (rat + (input.length : ℚ)) / rat = 1 + (input.length : ℚ) / rat := by
    field_simp
  rw [hsplit] at hkdiv
  have hceil : (input.length : ℚ) / rat ≤ (⌈(input.length : ℚ) / rat⌉ : ℚ) :=
    Int.le_ceil _
  have hq : (k : ℚ) < (⌈(input.length : ℚ) / rat⌉ : ℚ) + 1 := by linarith
  have hz : (k : ℤ) < ⌈(input.length : ℚ) / rat⌉ + 1 := by exact_mod_cast hq
  omega

theorem resample_downsample_output_bound_witness :
    ((((Resampler.mk 48000 16000 0).resample [1, 2, 3, 4, 5, 6]).2.length : ℤ) ≤
      ⌈(([1, 2, 3, 4, 5, 6] : List ℤ).length : ℚ) / ((48000 : ℚ) / (16000 : ℚ))⌉ + 1) :=
  resample_downsample_output_bound 48000 16000 (by norm_num) (by norm_num) 0
    Resampler.Reachable.init [1, 2, 3, 4, 5, 6]

/-- Helper for C9: recovering a u32 from its four little-endian bytes. -/
theorem leToU32_bytes (n : ℕ) (h : n < 4294967296) :
    leToU32 [n % 256, n / 256 % 256, n / 65536 % 256, n / 16777216 % 256] = n := by
  simp only [leToU32]
  omega

/-- Helper for C9: the sample payload is two bytes per sample. -/
theorem flatten_i16le_length (l : List ℤ) :
    ((l.map i16le).flatten).length = 2 * l.length := by
  induction l with
  | nil => rfl
  | cons s rest ih =>
    simp only [List.map_cons, List.flatten_cons, List.length_append, ih, i16le,
      List.length_cons, List.length_nil]
    omega

/-- Helper for C9: an i16 sample survives the little-endian
two's-complement encode/decode pair. -/
theorem leToI16_i16le (s : ℤ) (h1 : -32768 ≤ s) (h2 : s < 32768) :
    leToI16 ((s % 65536).toNat % 256) ((s % 65536).toNat / 256) = s := by
  have hm : (0 : ℤ) ≤ s % 65536 := Int.emod_nonneg s (by norm_num)
  have hn : (((s % 65536).toNat : ℤ)) = s % 65536 := Int.toNat_of_nonneg hm
  unfold leToI16
  push_cast
  rw [hn]
  split_ifs <;> omega

/-- Helper for C9: decoding the concatenated sample bytes recovers the
sample list. -/
theorem decodeSamples_flatten :
    ∀ l : List ℤ, (∀ s ∈ l, -32768 ≤ s ∧ s < 32768) →
      decodeSamples ((l.map i16le).flatten) = l := by
  intro l
  induction l with
  | nil => intro _; rfl
  | cons s rest ih =>
    intro h
    have hs := h s (List.mem_cons_self s rest)
    have hrest := ih (fun x hx => h x (List.mem_cons_of_mem s hx))
    simp only [List.map_cons, List.flatten_cons, i16le, List.cons_append,
      List.nil_append, decodeSamples]
    rw [leToI16_i16le s hs.1 hs.2]
    exact congrArg (List.cons s) hrest

/-- C9: `encode_wav` round-trips — parsing the produced bytes with the
spec's fixed 44-byte mono 16-bit little-endian PCM layout recovers
exactly the input samples and the input sample rate.  The hypotheses are
the machine-integer domain of the source types: the rate is a u32, each
sample is an i16, and the data-size header field (a u32) does not wrap. -/
theorem encode_wav_roundtrip (samples : List ℤ) (rate : ℕ)
    (hrate : rate < 4294967296)
    (hlen : 2 * samples.length < 4294967296)
    (hs : ∀ s ∈ samples, -32768 ≤ s ∧ s < 32768) :
    decode_wav (encode_wav samples rate) = some (samples, rate) := by
  have hr : rate % 4294967296 = rate := Nat.mod_eq_of_lt hrate
  have hd : 2 * samples.length % 4294967296 = 2 * samples.length :=
    Nat.mod_eq_of_lt hlen
  simp only [encode_wav, hr, hd, u16le, u32le, List.cons_append, List.nil_append]
  simp only [decode_wav, List.take_succ_cons, List.take_zero,
    List.drop_succ_cons, List.drop_zero]
  rw [if_pos (by norm_num [u32le, u16le])]
  rw [leToU32_bytes rate hrate, leToU32_bytes _ hlen,
    flatten_i16le_length samples]
  rw [if_pos rfl, decodeSamples_flatten samples hs]

theorem encode_wav_roundtrip_witness :
    decode_wav (encode_wav [0, 1, -1, 32767, -32768] 16000) =
      some ([0, 1, -1, 32767, -32768], 16000) :=
  encode_wav_roundtrip [0, 1, -1, 32767, -32768] 16000 (by norm_num)
    (by norm_num) (by decide)

/-- C10: the RMS level is not always within the closed range 0.0–1.0 —
on the chunk consisting of the single full-scale negative sample
`i16::MIN = -32768`, `calculate_rms` returns `32768 / 32767 > 1`,
because the normalisation divides by `i16::MAX = 32767` while the
root-mean-square of the chunk is 32768. -/
theorem calculate_rms_exceeds_one : 1 < calculate_rms [-32768] := by
  have hlist : ([-32768] : List ℤ) ≠ [] := by simp
  have hval : ((sumSq [-32768] : ℤ) : ℝ) / ((([-32768] : List ℤ).length : ℕ) : ℝ) =
      (32768 : ℝ) ^ 2 := by
    norm_num [sumSq]
  unfold calculate_rms
  rw [if_neg hlist, hval, Real.sqrt_sq (by norm_num : (0 : ℝ) ≤ 32768)]
  norm_num

end Voxlore
